import Mathlib

/-!
# Verification of the ingestion-and-upsert reconciliation subsystem

Shallow embedding of the ingestion pipelines of `energy_analytics`
(household / weather / grid ingestion, job tracking, gap detection),
with theorems settling the specification's claims about them.

Time-series timestamps are modelled as natural numbers (hours),
numeric measurements as rationals, missing values (`NaN`/`NULL`) as
`Option`, and the relational store of one table as an association list
from the compound key `(timestamp, entity_id)` to the stored row.
-/

set_option autoImplicit false

namespace EnergyAnalytics

/-! ## Upsert writer (`household.py _upsert_household_data_manually`,
`weather.py _upsert_weather_data`, `grid.py _upsert_grid_data`)

The store is one table keyed by `(timestamp, household_id)`.  The
`ON CONFLICT (timestamp, household_id) DO UPDATE SET ...` clause of the
household upsert SQL overwrites every measurement column from the
excluded (incoming) row but does not list `source_file`, which
therefore keeps its stored value on conflict. -/

/-- Compound primary key `(timestamp, entity_id)`. -/
abbrev Key := Nat × String

/-- The measurement columns of `household.consumption` that the
`DO UPDATE SET` clause overwrites from `EXCLUDED`. -/
structure HouseholdMeas where
  global_active_power : Option ℚ
  global_reactive_power : Option ℚ
  voltage : Option ℚ
  global_intensity : Option ℚ
  sub_metering_1 : Option ℚ
  sub_metering_2 : Option ℚ
  sub_metering_3 : Option ℚ
  calculated_other_consumption : Option ℚ
  data_quality_score : Option ℚ
  deriving DecidableEq, Repr

/-- A stored row of `household.consumption` minus its key columns:
the updatable measurements plus the `source_file` provenance column,
which the conflict clause does not update. -/
structure HouseholdDbRow where
  meas : HouseholdMeas
  source_file : String
  deriving DecidableEq, Repr

/-- One table of the store: rows in insertion order, keyed by `Key`. -/
abbrev Store := List (Key × HouseholdDbRow)

/-- `ON CONFLICT ... DO UPDATE SET`: all measurement columns come from
the excluded (incoming) row; `source_file` is not in the `SET` list and
keeps the old row's value. -/
def onConflictUpdate (excluded old : HouseholdDbRow) : HouseholdDbRow :=
  { meas := excluded.meas, source_file := old.source_file }

/-- Does the table contain a row with key `k` (uniqueness probe the
engine performs for the conflict check)? -/
def containsKey : Store → Key → Bool
  | [], _ => false
  | e :: st, k => decide (e.1 = k) || containsKey st k

/-- First stored row with key `k`. -/
def lookup : Store → Key → Option HouseholdDbRow
  | [], _ => none
  | e :: st, k => if e.1 = k then some e.2 else lookup st k

/-- Overwrite every row with key `k` via the conflict clause. -/
def replaceAll : Store → Key → HouseholdDbRow → Store
  | [], _, _ => []
  | e :: st, k, r =>
    (if e.1 = k then (k, onConflictUpdate r e.2) else e) :: replaceAll st k r

/-- One `INSERT ... ON CONFLICT DO UPDATE` statement: insert the row if
its key is fresh, otherwise update the existing row in place. -/
def upsertRow (st : Store) (k : Key) (r : HouseholdDbRow) : Store :=
  if containsKey st k then replaceAll st k r else st ++ [(k, r)]

/-- The batched upsert loop: apply the statement to each record of the
batch in order (`execute_many` over the validated batch). -/
def upsertBatch (st : Store) (b : List (Key × HouseholdDbRow)) : Store :=
  b.foldl (fun s kr => upsertRow s kr.1 kr.2) st

/-- Value carried by the last record of the batch for key `k` (the
last-applied write wins under `ON CONFLICT DO UPDATE`). -/
def lastVal : List (Key × HouseholdDbRow) → Key → Option HouseholdDbRow
  | [], _ => none
  | kr :: b, k =>
    match lastVal b k with
    | some v => some v
    | none => if kr.1 = k then some kr.2 else none

/-- Value carried by the first record of the batch for key `k` (the
record whose `INSERT` arm fires when the key is fresh). -/
def firstVal : List (Key × HouseholdDbRow) → Key → Option HouseholdDbRow
  | [], _ => none
  | kr :: b, k => if kr.1 = k then some kr.2 else firstVal b k

/-- Provenance column of the row stored at `k` after applying batch `b`:
the old stored value if the key existed, else the first inserted one. -/
def finalSrc (st : Store) (b : List (Key × HouseholdDbRow)) (k : Key) : String :=
  match lookup st k with
  | some old => old.source_file
  | none =>
    match firstVal b k with
    | some rF => rF.source_file
    | none => ""

theorem lookup_isSome_of_containsKey {st : Store} {k : Key}
    (h : containsKey st k = true) : (lookup st k).isSome := by
  induction st with
  | nil => simp [containsKey] at h
  | cons e st ih =>
    by_cases hk : e.1 = k
    · simp [lookup, hk]
    · simp [containsKey, hk] at h
      simpa [lookup, hk] using ih h

theorem lookup_eq_none_of_not_containsKey {st : Store} {k : Key}
    (h : containsKey st k = false) : lookup st k = none := by
  induction st with
  | nil => rfl
  | cons e st ih =>
    simp only [containsKey, Bool.or_eq_false_iff, decide_eq_false_iff_not] at h
    simp [lookup, h.1, ih h.2]

theorem lookup_replaceAll_self (st : Store) (k : Key) (r : HouseholdDbRow) :
    lookup (replaceAll st k r) k = (lookup st k).map (onConflictUpdate r) := by
  induction st with
  | nil => rfl
  | cons e st ih =>
    by_cases hk : e.1 = k
    · simp [replaceAll, lookup, hk]
    · simp [replaceAll, lookup, hk, ih]

theorem lookup_replaceAll_other {k k' : Key} (st : Store) (r : HouseholdDbRow)
    (h : k' ≠ k) : lookup (replaceAll st k r) k' = lookup st k' := by
  induction st with
  | nil => rfl
  | cons e st ih =>
    by_cases hk : e.1 = k
    · have hkk : k ≠ k' := fun hkk => h hkk.symm
      simp [replaceAll, lookup, hk, hkk, ih]
    · by_cases hk' : e.1 = k'
      · simp [replaceAll, lookup, hk, hk', h]
      · simp [replaceAll, lookup, hk, hk', ih]

theorem lookup_append (st st2 : Store) (k : Key) :
    lookup (st ++ st2) k =
      match lookup st k with
      | some v => some v
      | none => lookup st2 k := by
  induction st with
  | nil => rfl
  | cons e st ih =>
    by_cases hk : e.1 = k
    · simp [lookup, hk]
    · simp [lookup, hk, ih]

/-- Effect of one upsert statement on a point query: the written key
now holds the conflict-updated (or freshly inserted) row, every other
key is untouched. -/
theorem lookup_upsertRow (st : Store) (k : Key) (r : HouseholdDbRow) (k' : Key) :
    lookup (upsertRow st k r) k' =
      if k' = k then some ((lookup st k).elim r (onConflictUpdate r))
      else lookup st k' := by
  by_cases hc : containsKey st k
  · have hs := lookup_isSome_of_containsKey hc
    obtain ⟨old, hold⟩ := Option.isSome_iff_exists.mp hs
    by_cases hk : k' = k
    · subst hk
      simp [upsertRow, hc, lookup_replaceAll_self, hold]
    · simp [upsertRow, hc, lookup_replaceAll_other st r hk, hk]
  · have hn := lookup_eq_none_of_not_containsKey (Bool.eq_false_iff.mpr hc)
    by_cases hk : k' = k
    · subst hk
      simp [upsertRow, hc, lookup_append, hn, lookup]
    · have : k ≠ k' := fun hkk => hk hkk.symm
      rw [upsertRow, if_neg hc, lookup_append]
      simp [lookup, this, hk]
      cases lookup st k' <;> simp

theorem containsKey_replaceAll (st : Store) (k0 : Key) (r : HouseholdDbRow)
    (k : Key) : containsKey (replaceAll st k0 r) k = containsKey st k := by
  induction st with
  | nil => rfl
  | cons e st ih =>
    by_cases hk : e.1 = k0
    · simp [replaceAll, containsKey, hk, ih]
    · simp [replaceAll, containsKey, hk, ih]

theorem containsKey_append (st st2 : Store) (k : Key) :
    containsKey (st ++ st2) k = (containsKey st k || containsKey st2 k) := by
  induction st with
  | nil => rfl
  | cons e st ih => simp [containsKey, ih, Bool.or_assoc]

/-- One upsert adds exactly the written key to the key set. -/
theorem containsKey_upsertRow (st : Store) (k0 : Key) (r : HouseholdDbRow)
    (k : Key) :
    containsKey (upsertRow st k0 r) k = (containsKey st k || decide (k0 = k)) := by
  by_cases hc : containsKey st k0
  · rw [upsertRow, if_pos hc, containsKey_replaceAll]
    by_cases hk : k0 = k
    · subst hk
      simp [hc]
    · simp [hk]
  · rw [upsertRow, if_neg hc, containsKey_append]
    simp [containsKey]

theorem length_replaceAll (st : Store) (k : Key) (r : HouseholdDbRow) :
    (replaceAll st k r).length = st.length := by
  induction st with
  | nil => rfl
  | cons e st ih => simp [replaceAll, ih]

/-- An upsert statement grows the table only when the key is fresh. -/
theorem length_upsertRow (st : Store) (k : Key) (r : HouseholdDbRow) :
    (upsertRow st k r).length =
      if containsKey st k then st.length else st.length + 1 := by
  by_cases hc : containsKey st k
  · simp [upsertRow, hc, length_replaceAll]
  · simp [upsertRow, hc]

theorem containsKey_upsertBatch_mono {st : Store} {k : Key}
    (b : List (Key × HouseholdDbRow)) (h : containsKey st k = true) :
    containsKey (upsertBatch st b) k = true := by
  induction b generalizing st with
  | nil => exact h
  | cons kr b ih =>
    exact ih (by simp [containsKey_upsertRow, h])

theorem containsKey_upsertBatch_of_mem {st : Store}
    {b : List (Key × HouseholdDbRow)} {kr : Key × HouseholdDbRow}
    (h : kr ∈ b) : containsKey (upsertBatch st b) kr.1 = true := by
  induction b generalizing st with
  | nil => cases h
  | cons kr0 b ih =>
    rcases List.mem_cons.mp h with h0 | hmem
    · subst h0
      exact containsKey_upsertBatch_mono b (by simp [containsKey_upsertRow])
    · exact ih hmem

/-- A batch whose keys all already exist only updates in place: the row
count of the table does not change. -/
theorem length_upsertBatch_stable {st : Store} {b : List (Key × HouseholdDbRow)}
    (h : ∀ kr ∈ b, containsKey st kr.1 = true) :
    (upsertBatch st b).length = st.length := by
  induction b generalizing st with
  | nil => rfl
  | cons kr b ih =>
    have h0 : containsKey st kr.1 = true := h kr (List.mem_cons_self kr b)
    have hrest : ∀ kr' ∈ b, containsKey (upsertRow st kr.1 kr.2) kr'.1 = true := by
      intro kr' hmem
      simp [containsKey_upsertRow, h kr' (List.mem_cons_of_mem kr hmem)]
    calc (upsertBatch (upsertRow st kr.1 kr.2) b).length
        = (upsertRow st kr.1 kr.2).length := ih hrest
      _ = st.length := by simp [length_upsertRow, h0]

/-- Point-query characterisation of the batched upsert: a key written
by the batch ends with the measurements of the batch's last record for
it and with provenance `finalSrc`; other keys are untouched. -/
theorem lookup_upsertBatch (b : List (Key × HouseholdDbRow)) (st : Store)
    (k : Key) :
    lookup (upsertBatch st b) k =
      match lastVal b k with
      | some rL => some ⟨rL.meas, finalSrc st b k⟩
      | none => lookup st k := by
  induction b generalizing st with
  | nil => rfl
  | cons kr b ih =>
    have hstep : upsertBatch st (kr :: b) = upsertBatch (upsertRow st kr.1 kr.2) b := rfl
    rw [hstep, ih]
    rcases hlast : lastVal b k with _ | rL
    · by_cases hk' : kr.1 = k
      · subst hk'
        rw [lookup_upsertRow, if_pos rfl]
        rcases hold : lookup st kr.1 with _ | old
        · simp [lastVal, hlast, hold, Option.elim, finalSrc, firstVal]
        · simp [lastVal, hlast, hold, Option.elim, finalSrc, firstVal, onConflictUpdate]
      · have hk'' : ¬ k = kr.1 := fun h => hk' h.symm
        simp only [lastVal, hlast, if_neg hk']
        rw [lookup_upsertRow, if_neg hk'']
    · simp only [lastVal, hlast]
      have hsrc : finalSrc (upsertRow st kr.1 kr.2) b k = finalSrc st (kr :: b) k := by
        rw [finalSrc, lookup_upsertRow]
        by_cases hk : k = kr.1
        · rw [if_pos hk, ← hk]
          rcases hold : lookup st k with _ | old
          · simp [Option.elim, finalSrc, hold, firstVal, hk.symm]
          · simp [Option.elim, onConflictUpdate, finalSrc, hold]
        · rw [if_neg hk]
          rcases hold : lookup st k with _ | old
          · have hk' : ¬ kr.1 = k := fun h => hk h.symm
            simp [finalSrc, hold, firstVal, hk']
          · simp [finalSrc, hold]
      rw [hsrc]

/-- C1.  Idempotence of the upsert writer: re-applying the same batch
leaves every point query and the row count unchanged, and after one
application every key written by the batch stores the measurement
values of the batch's last record for that key. -/
theorem upsert_writer_idempotent (st : Store) (b : List (Key × HouseholdDbRow)) :
    (∀ k, lookup (upsertBatch (upsertBatch st b) b) k = lookup (upsertBatch st b) k) ∧
    (upsertBatch (upsertBatch st b) b).length = (upsertBatch st b).length ∧
    (∀ k, (lookup (upsertBatch st b) k).map HouseholdDbRow.meas =
      match lastVal b k with
      | some rL => some rL.meas
      | none => (lookup st k).map HouseholdDbRow.meas) := by
  refine ⟨?_, ?_, ?_⟩
  · intro k
    rw [lookup_upsertBatch b (upsertBatch st b) k]
    rcases hlast : lastVal b k with _ | rL
    · rfl
    · have honce := lookup_upsertBatch b st k
      rw [hlast] at honce
      have hsrc : finalSrc (upsertBatch st b) b k = finalSrc st b k := by
        rw [finalSrc, honce]
      rw [hsrc, honce]
  · exact length_upsertBatch_stable
      (fun kr hmem => containsKey_upsertBatch_of_mem hmem)
  · intro k
    rw [lookup_upsertBatch b st k]
    rcases lastVal b k with _ | rL <;> rfl

/-! ## Household validator (`household.py validate_data`)

`validate_data` keeps rows with a non-null timestamp, then keeps only
rows whose `global_active_power` lies in `[0, 20]` and whose `voltage`
lies in `[200, 260]` — a pandas comparison with `NaN` is false, so rows
with a null value in either column are dropped by these filters as
well — and finally computes `data_quality_score` per row from the null
count of the three required columns. -/

/-- A pre-insert household row: the pandas frame's datetime index plus
its numeric columns, with `NaN` as `none`. -/
structure HouseholdRecord where
  timestamp : Option Nat
  global_active_power : Option ℚ
  global_reactive_power : Option ℚ
  voltage : Option ℚ
  global_intensity : Option ℚ
  sub_metering_1 : Option ℚ
  sub_metering_2 : Option ℚ
  sub_metering_3 : Option ℚ
  data_quality_score : ℚ
  deriving DecidableEq, Repr

/-- Nulls among the required columns
`['global_active_power', 'voltage', 'global_intensity']`. -/
def requiredNullCount (r : HouseholdRecord) : Nat :=
  (if r.global_active_power = none then 1 else 0) +
    (if r.voltage = none then 1 else 0) +
    (if r.global_intensity = none then 1 else 0)

/-- `HouseholdIngestionPipeline.validate_data`. -/
def householdValidateData (data : List HouseholdRecord) : List HouseholdRecord :=
  let d1 := data.filter (fun r => r.timestamp.isSome)
  let d2 := d1.filter (fun r =>
    match r.global_active_power with
    | some v => decide (0 ≤ v) && decide (v ≤ 20)
    | none => false)
  let d3 := d2.filter (fun r =>
    match r.voltage with
    | some v => decide (200 ≤ v) && decide (v ≤ 260)
    | none => false)
  d3.map (fun r =>
    { r with data_quality_score := 1 - (requiredNullCount r : ℚ) / 3 })

/-! ## Weather validator (`weather.py validate_data`)

Out-of-range values are set to `NaN` column by column from
`WEATHER_VALIDATION_RANGES`, rows where every weather column is null
are dropped, and the remaining nulls are forward- then back-filled.
A `NaN` cell compares false against both bounds, so already-null cells
are left untouched by the range mask. -/

/-- The measurement columns of a weather observation row (every frame
column except `timestamp`, `location_id`, `latitude`, `longitude` and
`data_provider`). -/
inductive WeatherCol
  | temperature_2m_c
  | relative_humidity_2m_pct
  | dew_point_2m_c
  | apparent_temperature_c
  | rain_mm
  | shortwave_radiation_w_m2
  | wind_speed_10m_kmh
  | wind_direction_10m_deg
  | wind_gusts_10m_kmh
  | cloud_cover_pct
  | surface_pressure_hpa
  | visibility_m
  deriving DecidableEq, Repr

def WeatherCol.all : List WeatherCol :=
  [.temperature_2m_c, .relative_humidity_2m_pct, .dew_point_2m_c,
   .apparent_temperature_c, .rain_mm, .shortwave_radiation_w_m2,
   .wind_speed_10m_kmh, .wind_direction_10m_deg, .wind_gusts_10m_kmh,
   .cloud_cover_pct, .surface_pressure_hpa, .visibility_m]

/-- `WEATHER_VALIDATION_RANGES` from `database/models.py`: the declared
`[min, max]` per column; columns without an entry are not range-checked. -/
def weatherValidationRanges : WeatherCol → Option (ℚ × ℚ)
  | .temperature_2m_c => some (-50, 60)
  | .relative_humidity_2m_pct => some (0, 100)
  | .wind_speed_10m_kmh => some (0, 200)
  | .surface_pressure_hpa => some (800, 1100)
  | .rain_mm => some (0, 200)
  | .shortwave_radiation_w_m2 => some (0, 1500)
  | .cloud_cover_pct => some (0, 100)
  | .visibility_m => some (0, 50000)
  | _ => none

/-- One weather observation row; `meas` holds the measurement columns
with `NaN` as `none`. -/
structure WeatherRecord where
  timestamp : Nat
  location_id : String
  meas : WeatherCol → Option ℚ

/-- The range mask of `validate_data`: a value strictly outside its
declared range becomes `NaN`; null cells and unchecked columns pass
through (the mask `(x < min) | (x > max)` is false on `NaN`). -/
def rangeNullRecord (r : WeatherRecord) : WeatherRecord :=
  { r with meas := fun c =>
      match r.meas c, weatherValidationRanges c with
      | some v, some (lo, hi) => if v < lo ∨ hi < v then none else some v
      | m, _ => m }

/-- `dropna(subset=weather_cols, how='all')` keeps a row iff some
weather column is non-null. -/
def hasAnyMeasurement (r : WeatherRecord) : Bool :=
  WeatherCol.all.any (fun c => (r.meas c).isSome)

/-- Forward fill every measurement column, carrying the last non-null
value of each column. -/
def ffillFrom (last : WeatherCol → Option ℚ) : List WeatherRecord → List WeatherRecord
  | [] => []
  | r :: rs =>
    let filled : WeatherCol → Option ℚ := fun c =>
      match r.meas c with
      | some v => some v
      | none => last c
    { r with meas := filled } :: ffillFrom filled rs

def ffill (rows : List WeatherRecord) : List WeatherRecord :=
  ffillFrom (fun _ => none) rows

def bfill (rows : List WeatherRecord) : List WeatherRecord :=
  (ffill rows.reverse).reverse

/-- `WeatherIngestionPipeline.validate_data`: range-null every checked
column, drop all-null rows, then `ffill().bfill()` each column (the
columns are filled independently, so filling them simultaneously is the
per-column loop of the source). -/
def weatherValidateData (rows : List WeatherRecord) : List WeatherRecord :=
  match rows with
  | [] => []
  | _ => bfill (ffill ((rows.map rangeNullRecord).filter hasAnyMeasurement))

theorem length_ffillFrom (rows : List WeatherRecord) :
    ∀ last, (ffillFrom last rows).length = rows.length := by
  induction rows with
  | nil => intro last; rfl
  | cons r rs ih => intro last; simp [ffillFrom, ih]

theorem length_bfill (rows : List WeatherRecord) :
    (bfill rows).length = rows.length := by
  simp [bfill, ffill, length_ffillFrom]

/-- C2 counterexample.  The household scenario row
`{global_active_power: 35, voltage: 230}` (power out of `[0, 20]`) is
dropped entirely by `validate_data`'s range filter: the output batch is
empty, so no row with `global_active_power` nulled and `voltage` kept
exists, contradicting the claimed null-and-keep behaviour. -/
theorem household_out_of_range_row_dropped :
    householdValidateData
        [{ timestamp := some 0, global_active_power := some 35,
           global_reactive_power := some 1, voltage := some 230,
           global_intensity := some 1, sub_metering_1 := some 1,
           sub_metering_2 := some 1, sub_metering_3 := some 1,
           data_quality_score := 0 }] = [] ∧
    ¬ ∃ r ∈ householdValidateData
        [{ timestamp := some 0, global_active_power := some 35,
           global_reactive_power := some 1, voltage := some 230,
           global_intensity := some 1, sub_metering_1 := some 1,
           sub_metering_2 := some 1, sub_metering_3 := some 1,
           data_quality_score := 0 }],
      r.global_active_power = none ∧ r.voltage = some 230 := by
  constructor
  · rfl
  · decide

/-- C2 (amended).  The weather validator sets out-of-range values to
null while keeping the row (in-range values are preserved and the
range mask drops no row — only the all-null filter does), but the
household validator instead drops any row whose `global_active_power`
or `voltage` is out of range: the scenario row
`{global_active_power: 35, voltage: 230}` is removed entirely and
receives no quality score. -/
theorem range_check_null_vs_drop :
    (∀ (r : WeatherRecord) (c : WeatherCol) (lo hi v : ℚ),
      weatherValidationRanges c = some (lo, hi) → r.meas c = some v →
      (v < lo ∨ hi < v) → (rangeNullRecord r).meas c = none) ∧
    (∀ (r : WeatherRecord) (c : WeatherCol) (lo hi v : ℚ),
      weatherValidationRanges c = some (lo, hi) → r.meas c = some v →
      lo ≤ v → v ≤ hi → (rangeNullRecord r).meas c = some v) ∧
    (∀ rows : List WeatherRecord,
      (weatherValidateData rows).length =
        ((rows.map rangeNullRecord).filter hasAnyMeasurement).length) ∧
    householdValidateData
        [{ timestamp := some 0, global_active_power := some 35,
           global_reactive_power := some 1, voltage := some 230,
           global_intensity := some 1, sub_metering_1 := some 1,
           sub_metering_2 := some 1, sub_metering_3 := some 1,
           data_quality_score := 0 }] = [] := by
  refine ⟨?_, ?_, ?_, rfl⟩
  · intro r c lo hi v hrange hv hout
    simp [rangeNullRecord, hv, hrange, hout]
  · intro r c lo hi v hrange hv hlo hhi
    have h1 : ¬ v < lo := not_lt.mpr hlo
    have h2 : ¬ hi < v := not_lt.mpr hhi
    simp [rangeNullRecord, hv, hrange, h1, h2]
  · intro rows
    match rows with
    | [] => rfl
    | r :: rs =>
      simp only [weatherValidateData, length_bfill, ffill, length_ffillFrom]

/-- Witness for C2 (amended): a temperature of 100 °C is nulled, an
in-range rain value survives, and a one-row batch keeps its row. -/
theorem range_check_null_vs_drop_witness :
    (rangeNullRecord
        { timestamp := 0, location_id := "paris_fr_001",
          meas := fun c => match c with
            | .temperature_2m_c => some 100
            | _ => some 1 }).meas .temperature_2m_c = none ∧
    (rangeNullRecord
        { timestamp := 0, location_id := "paris_fr_001",
          meas := fun c => match c with
            | .temperature_2m_c => some 100
            | _ => some 1 }).meas .rain_mm = some 1 ∧
    (weatherValidateData
        [{ timestamp := 0, location_id := "paris_fr_001",
           meas := fun c => match c with
             | .temperature_2m_c => some 100
             | _ => some 1 }]).length = 1 := by
  refine ⟨?_, ?_, ?_⟩
  · exact (range_check_null_vs_drop).1 _ .temperature_2m_c (-50) 60 100
      rfl rfl (by norm_num)
  · exact (range_check_null_vs_drop).2.1 _ .rain_mm 0 200 1
      rfl rfl (by norm_num) (by norm_num)
  · rw [(range_check_null_vs_drop).2.2.1]
    rfl

/-- C4.  Every row surviving household validation carries
`data_quality_score = 1 − nulls_among_required/3`, the score lies in
`[0, 1]`, and it is exactly 1 when no required column is null. -/
theorem household_quality_score (data : List HouseholdRecord)
    (r : HouseholdRecord) (h : r ∈ householdValidateData data) :
    r.data_quality_score = 1 - (requiredNullCount r : ℚ) / 3 ∧
    0 ≤ r.data_quality_score ∧ r.data_quality_score ≤ 1 ∧
    (requiredNullCount r = 0 → r.data_quality_score = 1) := by
  obtain ⟨a, _, rfl⟩ := List.mem_map.mp h
  have hcount :
      requiredNullCount
        { a with data_quality_score := 1 - (requiredNullCount a : ℚ) / 3 } =
        requiredNullCount a := rfl
  have hle : requiredNullCount a ≤ 3 := by
    unfold requiredNullCount
    split_ifs <;> omega
  have hcast : (requiredNullCount a : ℚ) ≤ 3 := by exact_mod_cast hle
  have hpos : (0 : ℚ) ≤ (requiredNullCount a : ℚ) := by positivity
  refine ⟨by rw [hcount], ?_, ?_, ?_⟩
  · show (0 : ℚ) ≤ 1 - (requiredNullCount a : ℚ) / 3
    linarith
  · show 1 - (requiredNullCount a : ℚ) / 3 ≤ 1
    linarith
  · intro hz
    rw [hcount] at hz
    show 1 - (requiredNullCount a : ℚ) / 3 = 1
    rw [hz]
    norm_num

/-- Witness for C4 at a complete one-row batch: the surviving row
scores exactly 1. -/
theorem household_quality_score_witness :
    ({ timestamp := some 0, global_active_power := some 1,
       global_reactive_power := some 1, voltage := some 230,
       global_intensity := some 1, sub_metering_1 := some 1,
       sub_metering_2 := some 1, sub_metering_3 := some 1,
       data_quality_score := 1 } : HouseholdRecord).data_quality_score =
        1 - (requiredNullCount
          { timestamp := some 0, global_active_power := some 1,
            global_reactive_power := some 1, voltage := some 230,
            global_intensity := some 1, sub_metering_1 := some 1,
            sub_metering_2 := some 1, sub_metering_3 := some 1,
            data_quality_score := 1 } : ℚ) / 3 ∧
    (0 : ℚ) ≤ 1 ∧ (1 : ℚ) ≤ 1 ∧ (1 : ℚ) = 1 := by
  have h := household_quality_score
    [{ timestamp := some 0, global_active_power := some 1,
       global_reactive_power := some 1, voltage := some 230,
       global_intensity := some 1, sub_metering_1 := some 1,
       sub_metering_2 := some 1, sub_metering_3 := some 1,
       data_quality_score := 0 }]
    { timestamp := some 0, global_active_power := some 1,
      global_reactive_power := some 1, voltage := some 230,
      global_intensity := some 1, sub_metering_1 := some 1,
      sub_metering_2 := some 1, sub_metering_3 := some 1,
      data_quality_score := 1 }
    (by
      simp [householdValidateData, requiredNullCount, List.filter, List.map,
        List.mem_singleton])
  exact ⟨h.1, h.2.1, h.2.2.1, h.2.2.2 (by decide)⟩

/-! ## Row-level upsert fallback error handling
(`household.py _upsert_household_data_manually`,
`weather.py _upsert_weather_data`, `grid.py _upsert_grid_data`)

The records are chunked into fixed-size batches and each batch is sent
through `execute_many`.  The whole loop sits inside one `try`: an
exception from any batch propagates out of the loop and the `except`
arm returns 0.  `exec` models `execute_many` succeeding or raising on a
given batch. -/

section UpsertFallback

variable {α : Type}

/-- Split into `size`-element chunks (`records[i:i + batch_size]`);
the fuel argument is bounded by the list length. -/
def chunksGo (size : Nat) : Nat → List α → List (List α)
  | 0, _ => []
  | _, [] => []
  | fuel + 1, l => l.take size :: chunksGo size fuel (l.drop size)

def chunks (size : Nat) (l : List α) : List (List α) :=
  chunksGo size l.length l

/-- The batch loop: on success accumulate the batch length into the
running count, on failure the exception escapes the loop. -/
def runUpsertBatches (exec : List α → Bool) : List (List α) → Except Unit Nat
  | [] => .ok 0
  | b :: bs =>
    if exec b then
      match runUpsertBatches exec bs with
      | .ok n => .ok (b.length + n)
      | .error e => .error e
    else .error ()

/-- The manual-upsert entry point: the `except` arm around the whole
loop logs and returns 0. -/
def upsertManually (exec : List α → Bool) (records : List α)
    (batchSize : Nat) : Nat :=
  match runUpsertBatches exec (chunks batchSize records) with
  | .ok n => n
  | .error _ => 0

theorem runUpsertBatches_ok {exec : List α → Bool} {bs : List (List α)}
    (h : bs.all exec = true) :
    runUpsertBatches exec bs = .ok (bs.map List.length).sum := by
  induction bs with
  | nil => rfl
  | cons b bs ih =>
    simp only [List.all_cons, Bool.and_eq_true] at h
    simp [runUpsertBatches, h.1, ih h.2]

theorem runUpsertBatches_error {exec : List α → Bool} {bs : List (List α)}
    (h : bs.all exec = false) :
    runUpsertBatches exec bs = .error () := by
  induction bs with
  | nil => simp [List.all_nil] at h
  | cons b bs ih =>
    simp only [List.all_cons, Bool.and_eq_false_iff] at h
    rcases h with h | h
    · simp [runUpsertBatches, h]
    · by_cases hb : exec b
      · simp [runUpsertBatches, hb, ih h]
      · simp [runUpsertBatches, hb]

theorem sum_length_chunksGo {size : Nat} (hsize : 0 < size) :
    ∀ (fuel : Nat) (l : List α), l.length ≤ fuel →
      ((chunksGo size fuel l).map List.length).sum = l.length := by
  intro fuel
  induction fuel with
  | zero =>
    intro l hl
    have : l = [] := List.eq_nil_of_length_eq_zero (Nat.le_zero.mp hl)
    subst this
    rfl
  | succ fuel ih =>
    intro l hl
    match l with
    | [] => rfl
    | a :: l' =>
      have hdrop : ((a :: l').drop size).length ≤ fuel := by
        rw [List.length_drop, List.length_cons]
        simp only [List.length_cons] at hl
        omega
      have hstep : chunksGo size (fuel + 1) (a :: l') =
          (a :: l').take size :: chunksGo size fuel ((a :: l').drop size) := rfl
      rw [hstep, List.map_cons, List.sum_cons, ih _ hdrop,
        List.length_take, List.length_drop]
      simp only [List.length_cons] at hl ⊢
      omega

theorem sum_length_chunks {size : Nat} (hsize : 0 < size) (l : List α) :
    ((chunks size l).map List.length).sum = l.length :=
  sum_length_chunksGo hsize l.length l le_rfl

set_option maxRecDepth 8000 in
/-- C3 counterexample.  150 records chunk into a 100-batch and a
50-batch; `execute_many` succeeds on the first and fails on the second.
The call returns 0, not the partial count 100 the claim requires. -/
theorem upsert_batch_failure_reports_zero :
    upsertManually (fun b : List Unit => b.length == 100)
        (List.replicate 150 ()) 100 = 0 ∧
    ¬ upsertManually (fun b : List Unit => b.length == 100)
        (List.replicate 150 ()) 100 = 100 := by
  constructor
  · rfl
  · decide

/-- C3 (amended).  The row-level fallback is all-or-nothing: the first
failing batch raises out of the loop and the call returns 0 — any
failure, not only a connectivity one, discards the partial count; only
when every batch succeeds does the call return the full record count. -/
theorem upsert_fallback_all_or_nothing (exec : List α → Bool)
    (records : List α) (batchSize : Nat) (hsize : 0 < batchSize) :
    upsertManually exec records batchSize =
      if (chunks batchSize records).all exec then records.length else 0 := by
  by_cases h : (chunks batchSize records).all exec
  · rw [if_pos h, upsertManually, runUpsertBatches_ok h,
      sum_length_chunks hsize records]
  · rw [if_neg h, upsertManually,
      runUpsertBatches_error (Bool.eq_false_iff.mpr h)]

/-- Witness for C3 (amended): two records in one all-succeeding batch
yield the full count 2. -/
theorem upsert_fallback_all_or_nothing_witness :
    upsertManually (fun _ : List Unit => true) [(), ()] 100 = 2 := by
  rw [upsert_fallback_all_or_nothing (fun _ : List Unit => true) [(), ()] 100
    (by norm_num)]
  rfl

end UpsertFallback

/-! ## Grid source fallback (`grid.py ingest_batch_data`,
`_generate_sample_grid_data`)

`ingest_batch_data` takes OPSD data if non-empty, otherwise the
ENTSO-E result if non-empty, otherwise the synthetic generator.  The
generator walks the window hour by hour emitting one record per
country in `['FR', 'DE', 'ES']`; its numeric values come from
`np.random`/`np.cos` floating-point draws, abstracted here as the
oracle `vals` — the claims only concern the deterministic shape. -/

/-- The numeric columns of a `grid.operations` record. -/
structure GridVals where
  load_actual_mw : ℚ
  load_forecast_mw : ℚ
  solar_generation_actual_mw : ℚ
  wind_onshore_generation_actual_mw : ℚ
  wind_offshore_generation_actual_mw : ℚ
  hydro_generation_actual_mw : ℚ
  nuclear_generation_actual_mw : ℚ
  fossil_generation_actual_mw : ℚ
  other_renewable_generation_mw : ℚ
  total_generation_mw : ℚ
  net_import_export_mw : ℚ
  price_day_ahead_eur_mwh : ℚ
  deriving DecidableEq, Repr

structure GridRow where
  timestamp : Nat
  country_code : String
  region_code : String
  meas : GridVals
  source : String
  deriving DecidableEq, Repr

def zeroGridVals : GridVals := ⟨0, 0, 0, 0, 0, 0, 0, 0, 0, 0, 0, 0⟩

def syntheticCountries : List String := ["FR", "DE", "ES"]

/-- One synthetic record: key fields and provenance are deterministic,
the numeric payload comes from the randomness oracle. -/
def mkSyntheticRecord (vals : Nat → String → GridVals) (t : Nat)
    (c : String) : GridRow :=
  { timestamp := t, country_code := c, region_code := c, meas := vals t c,
    source := "Synthetic Generator" }

/-- The `while current_time < end_time` loop, one hour per step, three
country records per hour. -/
def genGridGo (vals : Nat → String → GridVals) : Nat → Nat → List GridRow
  | 0, _ => []
  | n + 1, t => syntheticCountries.map (mkSyntheticRecord vals t) ++ genGridGo vals n (t + 1)

def generateSampleGridData (vals : Nat → String → GridVals)
    (start endT : Nat) : List GridRow :=
  genGridGo vals (endT - start) start

/-- `grid_data is None or grid_data.empty`. -/
def emptyResult : Option (List GridRow) → Bool
  | none => true
  | some l => l.isEmpty

/-- The source-priority chain of `ingest_batch_data`: OPSD result,
then ENTSO-E result, then the synthetic batch. -/
def chooseGridSource (opsd entsoe : Option (List GridRow))
    (synth : List GridRow) : List GridRow :=
  let d1 := if emptyResult opsd then entsoe else opsd
  let d2 := if emptyResult d1 then some synth else d1
  d2.getD []

theorem length_genGridGo (vals : Nat → String → GridVals) :
    ∀ n t, (genGridGo vals n t).length = 3 * n := by
  intro n
  induction n with
  | zero => intro t; rfl
  | succ n ih =>
    intro t
    simp only [genGridGo, List.length_append, List.length_map, ih]
    simp [syntheticCountries]
    omega

theorem mem_genGridGo (vals : Nat → String → GridVals) :
    ∀ (n t : Nat) (r : GridRow), r ∈ genGridGo vals n t →
      r.country_code ∈ syntheticCountries ∧ r.region_code = r.country_code ∧
      r.source = "Synthetic Generator" ∧ t ≤ r.timestamp ∧ r.timestamp < t + n := by
  intro n
  induction n with
  | zero => intro t r h; cases h
  | succ n ih =>
    intro t r h
    rcases List.mem_append.mp h with h | h
    · obtain ⟨c, hc, rfl⟩ := List.mem_map.mp h
      have ht : (mkSyntheticRecord vals t c).timestamp = t := rfl
      exact ⟨hc, rfl, rfl, ht.symm.le, by rw [ht]; omega⟩
    · obtain ⟨h1, h2, h3, h4, h5⟩ := ih (t + 1) r h
      exact ⟨h1, h2, h3, by omega, by omega⟩

/-- C5.  The grid fetcher uses the fixed priority order OPSD → ENTSO-E
→ synthetic: a non-empty primary result is returned as is, the
secondary result is returned exactly when the primary is missing or
empty, and only when both are missing/empty is the synthetic batch
used — which, over a non-degenerate window, is non-empty with three
country records per hour, each carrying the full canonical schema. -/
theorem grid_source_priority_and_synthetic_fallback :
    (∀ (t1 : List GridRow) (e : Option (List GridRow)) (s : List GridRow),
      t1 ≠ [] → chooseGridSource (some t1) e s = t1) ∧
    (∀ (o : Option (List GridRow)) (t2 s : List GridRow),
      (o = none ∨ o = some []) → t2 ≠ [] →
      chooseGridSource o (some t2) s = t2) ∧
    (∀ (o e : Option (List GridRow)) (s : List GridRow),
      (o = none ∨ o = some []) → (e = none ∨ e = some []) →
      chooseGridSource o e s = s) ∧
    (∀ (vals : Nat → String → GridVals) (a b : Nat), a < b →
      generateSampleGridData vals a b ≠ [] ∧
      (generateSampleGridData vals a b).length = 3 * (b - a) ∧
      ∀ r ∈ generateSampleGridData vals a b,
        r.country_code ∈ syntheticCountries ∧ r.region_code = r.country_code ∧
        r.source = "Synthetic Generator" ∧ a ≤ r.timestamp ∧ r.timestamp < b) := by
  refine ⟨?_, ?_, ?_, ?_⟩
  · intro t1 e s h1
    have : emptyResult (some t1) = false := by
      simp [emptyResult, List.isEmpty_iff, h1]
    simp [chooseGridSource, this]
  · intro o t2 s ho h2
    have he : emptyResult o = true := by
      rcases ho with rfl | rfl <;> simp [emptyResult]
    have : emptyResult (some t2) = false := by
      simp [emptyResult, List.isEmpty_iff, h2]
    simp [chooseGridSource, he, this]
  · intro o e s ho he
    rcases ho with rfl | rfl <;> rcases he with rfl | rfl <;>
      simp [chooseGridSource, emptyResult]
  · intro vals a b hab
    have hlen : (generateSampleGridData vals a b).length = 3 * (b - a) :=
      length_genGridGo vals (b - a) a
    refine ⟨?_, hlen, ?_⟩
    · intro hnil
      rw [hnil] at hlen
      simp only [List.length_nil] at hlen
      omega
    · intro r hr
      obtain ⟨h1, h2, h3, h4, h5⟩ := mem_genGridGo vals (b - a) a r hr
      exact ⟨h1, h2, h3, h4, by omega⟩

/-- Witness for C5: one-row real sources and a 0→2 hour synthetic
window exercise every branch of the priority chain. -/
theorem grid_source_priority_witness :
    chooseGridSource
        (some [mkSyntheticRecord (fun _ _ => zeroGridVals) 0 "FR"]) none [] =
      [mkSyntheticRecord (fun _ _ => zeroGridVals) 0 "FR"] ∧
    chooseGridSource none
        (some [mkSyntheticRecord (fun _ _ => zeroGridVals) 0 "FR"]) [] =
      [mkSyntheticRecord (fun _ _ => zeroGridVals) 0 "FR"] ∧
    chooseGridSource none none
        [mkSyntheticRecord (fun _ _ => zeroGridVals) 0 "FR"] =
      [mkSyntheticRecord (fun _ _ => zeroGridVals) 0 "FR"] ∧
    generateSampleGridData (fun _ _ => zeroGridVals) 0 2 ≠ [] ∧
    (generateSampleGridData (fun _ _ => zeroGridVals) 0 2).length = 3 * (2 - 0) := by
  refine ⟨?_, ?_, ?_, ?_, ?_⟩
  · exact grid_source_priority_and_synthetic_fallback.1 _ none []
      (by simp)
  · exact grid_source_priority_and_synthetic_fallback.2.1 none _ []
      (Or.inl rfl) (by simp)
  · exact grid_source_priority_and_synthetic_fallback.2.2.1 none none _
      (Or.inl rfl) (Or.inl rfl)
  · exact (grid_source_priority_and_synthetic_fallback.2.2.2
      (fun _ _ => zeroGridVals) 0 2 (by norm_num)).1
  · exact (grid_source_priority_and_synthetic_fallback.2.2.2
      (fun _ _ => zeroGridVals) 0 2 (by norm_num)).2.1

/-! ## OPSD column reconciler (`grid.py _process_opsd_data`)

Column names are plain strings; Python's `str.lower`, `str.upper`,
`in` (substring) and `split('_')` are modelled character-wise on
`String.data`.  For each canonical target the code tries an exact
column-name match and then a fuzzy pass: the first raw column that
contains the country prefix and any keyword of the target's expected
name wins.  If nothing mapped at all, a third "flexible" pass keyed on
domain words runs.  Unmapped required columns are defaulted to `0.0`
and `total_generation_mw` sums the seven generation columns. -/

def lowerStr (s : String) : String := String.mk (s.data.map Char.toLower)

def upperStr (s : String) : String := String.mk (s.data.map Char.toUpper)

/-- `needle` is a prefix of `hay`. -/
def prefixMatches : List Char → List Char → Bool
  | [], _ => true
  | _ :: _, [] => false
  | c :: cs, d :: ds => c == d && prefixMatches cs ds

/-- Python's substring test `needle in hay`. -/
def charListContains (needle : List Char) : List Char → Bool
  | [] => prefixMatches needle []
  | c :: t => prefixMatches needle (c :: t) || charListContains needle t

def strContains (hay needle : String) : Bool :=
  charListContains needle.data hay.data

/-- `str.split(sep)` on character lists. -/
def splitOnChar (sep : Char) : List Char → List (List Char)
  | [] => [[]]
  | c :: t =>
    match splitOnChar sep t with
    | [] => if c == sep then [[], []] else [[c]]
    | r :: rs => if c == sep then [] :: r :: rs else (c :: r) :: rs

/-- The per-country `column_mappings` dict of `_process_opsd_data`, in
insertion order: expected OPSD column name → canonical column. -/
def opsdColumnMappings (country : String) : List (String × String) :=
  let p := lowerStr country
  [(p ++ "_load_actual_entsoe_transparency", "load_actual_mw"),
   (p ++ "_load_forecast_entsoe_transparency", "load_forecast_mw"),
   (p ++ "_solar_generation_actual", "solar_generation_actual_mw"),
   (p ++ "_wind_onshore_generation_actual", "wind_onshore_generation_actual_mw"),
   (p ++ "_wind_offshore_generation_actual", "wind_offshore_generation_actual_mw"),
   (p ++ "_hydro_generation_actual", "hydro_generation_actual_mw"),
   (p ++ "_nuclear_generation_actual", "nuclear_generation_actual_mw"),
   (p ++ "_fossil_gas_generation_actual", "fossil_generation_actual_mw"),
   (p ++ "_fossil_coal_generation_actual", "fossil_coal_generation_actual_mw"),
   (p ++ "_price_day_ahead", "price_day_ahead_eur_mwh")]

/-- `opsd_col.split('_')[1:]`, the keyword list of the fuzzy pass. -/
def fuzzyKeywords (opsdCol : String) : List (List Char) :=
  (splitOnChar '_' opsdCol.data).drop 1

/-- Exact match against the mapping table, then the fuzzy pass: the
first raw column whose lowercase form contains the lowercase country
code and any keyword of the expected name. -/
def resolveOpsdColumn (cols : List String) (country : String)
    (opsdCol : String) : Option String :=
  if opsdCol ∈ cols then some opsdCol
  else cols.find? (fun col =>
    charListContains (lowerStr country).data (lowerStr col).data &&
      (fuzzyKeywords opsdCol).any (fun kw => charListContains kw (lowerStr col).data))

def opsdPrimaryMappings (cols : List String) (country : String) :
    List (String × Option String) :=
  (opsdColumnMappings country).map
    (fun m => (m.2, resolveOpsdColumn cols country m.1))

/-- The elif chain of the flexible pass: which canonical column a raw
column is assigned to. -/
def flexTarget (col : String) : Option String :=
  let cl := lowerStr col
  if strContains cl "load" && strContains cl "actual" then some "load_actual_mw"
  else if strContains cl "solar" then some "solar_generation_actual_mw"
  else if strContains cl "wind" && strContains cl "onshore" then
    some "wind_onshore_generation_actual_mw"
  else if strContains cl "wind" && strContains cl "offshore" then
    some "wind_offshore_generation_actual_mw"
  else if strContains cl "hydro" then some "hydro_generation_actual_mw"
  else if strContains cl "nuclear" then some "nuclear_generation_actual_mw"
  else if strContains cl "price" then some "price_day_ahead_eur_mwh"
  else none

/-- Flexible pass: among raw columns starting with `COUNTRY_`, the last
one the elif chain assigns to `target` wins (later assignments
overwrite earlier ones). -/
def flexResolve (cols : List String) (country : String)
    (target : String) : Option String :=
  (cols.filter (fun col =>
    prefixMatches (upperStr country ++ "_").data (upperStr col).data &&
      flexTarget col == some target)).getLast?

/-- Source column feeding each canonical target for one country: the
exact/fuzzy pass, or — only when it mapped nothing — the flexible pass. -/
def opsdResolve (cols : List String) (country : String) :
    List (String × Option String) :=
  let primary := opsdPrimaryMappings cols country
  if primary.any (fun t => t.2.isSome) then primary
  else (opsdColumnMappings country).map (fun m => (m.2, flexResolve cols country m.2))

/-- The seven generation columns summed into `total_generation_mw`. -/
def opsdGenerationCols : List String :=
  ["solar_generation_actual_mw", "wind_onshore_generation_actual_mw",
   "wind_offshore_generation_actual_mw", "hydro_generation_actual_mw",
   "nuclear_generation_actual_mw", "fossil_generation_actual_mw",
   "other_renewable_generation_mw"]

/-- First resolution entry for a canonical target. -/
def lookupResolved : List (String × Option String) → String → Option (Option String)
  | [], _ => none
  | e :: rest, target => if e.1 = target then some e.2 else lookupResolved rest target

/-- Per-row value of a canonical column: the mapped raw column's value,
or the `0.0` default for unmapped required columns. -/
def canonicalValue (resolved : List (String × Option String))
    (target : String) (row : String → ℚ) : ℚ :=
  match lookupResolved resolved target with
  | some (some src) => row src
  | _ => 0

def totalGenerationMw (cols : List String) (country : String)
    (row : String → ℚ) : ℚ :=
  (opsdGenerationCols.map
    (fun t => canonicalValue (opsdResolve cols country) t row)).sum

/-- Country extraction: two-letter prefixes before `_` that are known
country codes, collected without duplicates. -/
def extractCountries (cols : List String) : List String :=
  cols.foldl (fun acc col =>
    match splitOnChar '_' col.data with
    | p :: _ :: _ =>
      let up := String.mk (p.map Char.toUpper)
      if p.length == 2 &&
          up ∈ (["FR", "DE", "ES", "IT", "NL", "BE", "AT", "CH", "PL"] : List String) then
        if up ∈ acc then acc else acc ++ [up]
      else acc
    | _ => acc) []

/-- The scenario's raw columns (after the `utc_timestamp` →
`timestamp` normalisation). -/
def frScenarioCols : List String :=
  ["fr_load_actual_entsoe_transparency", "fr_solar_generation_actual", "timestamp"]

/-- How the reconciler actually resolves the scenario's targets. -/
def frScenarioResolved : List (String × Option String) :=
  [("load_actual_mw", some "fr_load_actual_entsoe_transparency"),
   ("load_forecast_mw", some "fr_load_actual_entsoe_transparency"),
   ("solar_generation_actual_mw", some "fr_solar_generation_actual"),
   ("wind_onshore_generation_actual_mw", some "fr_load_actual_entsoe_transparency"),
   ("wind_offshore_generation_actual_mw", some "fr_load_actual_entsoe_transparency"),
   ("hydro_generation_actual_mw", some "fr_load_actual_entsoe_transparency"),
   ("nuclear_generation_actual_mw", some "fr_load_actual_entsoe_transparency"),
   ("fossil_generation_actual_mw", some "fr_load_actual_entsoe_transparency"),
   ("fossil_coal_generation_actual_mw", some "fr_load_actual_entsoe_transparency"),
   ("price_day_ahead_eur_mwh", none)]

/-- A concrete scenario row: load column 100, solar column 7. -/
def frScenarioRow : String → ℚ := fun s =>
  if s = "fr_load_actual_entsoe_transparency" then 100
  else if s = "fr_solar_generation_actual" then 7 else 0

set_option maxRecDepth 40000 in
theorem opsdResolve_frScenario :
    opsdResolve frScenarioCols "FR" = frScenarioResolved := by decide

set_option maxRecDepth 40000 in
/-- C6 counterexample.  On the scenario columns the fuzzy keyword pass
maps `wind_onshore_generation_actual_mw` to the *load* column (keyword
`actual` matches `fr_load_actual_entsoe_transparency`), and
`total_generation_mw` comes out as `7 + 5·100 = 507`, not the solar
value 7 the claim requires. -/
theorem opsd_fuzzy_overmatch :
    lookupResolved (opsdResolve frScenarioCols "FR")
        "wind_onshore_generation_actual_mw" =
      some (some "fr_load_actual_entsoe_transparency") ∧
    totalGenerationMw frScenarioCols "FR" frScenarioRow = 507 ∧
    ¬ totalGenerationMw frScenarioCols "FR" frScenarioRow = 7 := by
  have htot : totalGenerationMw frScenarioCols "FR" frScenarioRow = 507 := by
    rw [totalGenerationMw, opsdResolve_frScenario]
    simp [opsdGenerationCols, canonicalValue, frScenarioResolved,
      lookupResolved, frScenarioRow]
    norm_num
  refine ⟨?_, htot, ?_⟩
  · rw [opsdResolve_frScenario]
    decide
  · rw [htot]
    norm_num

set_option maxRecDepth 40000 in
/-- C6 (amended).  For entity FR the exact pass maps the load and solar
columns to `load_actual_mw` and `solar_generation_actual_mw`, but the
fuzzy keyword pass then maps `load_forecast_mw` and every generation
target except solar (wind onshore/offshore, hydro, nuclear, fossil,
fossil-coal) to the load column as well, because its name contains the
keyword `actual` (first match wins); only the price column stays
unmapped and is defaulted, and `total_generation_mw` comes out as
`solar + 5 × load` rather than the solar value alone. -/
theorem opsd_reconciler_fr_scenario :
    extractCountries frScenarioCols = ["FR"] ∧
    opsdResolve frScenarioCols "FR" = frScenarioResolved ∧
    (∀ row : String → ℚ,
      totalGenerationMw frScenarioCols "FR" row =
        row "fr_solar_generation_actual" +
          5 * row "fr_load_actual_entsoe_transparency") := by
  refine ⟨by decide, opsdResolve_frScenario, ?_⟩
  intro row
  rw [totalGenerationMw, opsdResolve_frScenario]
  simp [opsdGenerationCols, canonicalValue, frScenarioResolved, lookupResolved]
  ring

/-! ## Job tracker (`monitoring/job_tracking.py`,
`base.py _batch_ingest_weather_data`)

`start_job` inserts a `running` record with `start_time = now()` and
returns its id; any store failure is caught and the sentinel `-1` is
returned (also when `fetchone()` yields no row).  `complete_job`
updates the record with `end_time = now()`, the final status and the
counts (`records_inserted` defaulting to `records_processed`), and
swallows store failures.  The orchestrator wraps each pipeline run in
`start_job` / `complete_job(completed | failed)`.  Clock readings are
naturals; the only clock assumption is that the completion reading is
not earlier than the start reading. -/

inductive JobStatus
  | running
  | completed
  | failed
  deriving DecidableEq, Repr

structure IngestionJob where
  job_name : String
  data_source : String
  start_time : Nat
  end_time : Option Nat
  status : JobStatus
  records_processed : Option Nat
  records_inserted : Option Nat
  error_message : Option String
  deriving DecidableEq, Repr

/-- The row inserted by `start_job`. -/
def startJobRecord (name src : String) (t : Nat) : IngestionJob :=
  { job_name := name, data_source := src, start_time := t,
    end_time := none, status := .running, records_processed := none,
    records_inserted := none, error_message := none }

/-- The update applied by `complete_job`; a `None` `records_inserted`
defaults to `records_processed`. -/
def completeJobRecord (r : IngestionJob) (t : Nat) (st : JobStatus)
    (processed : Nat) (inserted : Option Nat)
    (err : Option String) : IngestionJob :=
  { r with
    end_time := some t
    status := st
    records_processed := some processed
    records_inserted := some (inserted.getD processed)
    error_message := err }

/-- One orchestrated run (`_batch_ingest_weather_data` and friends):
start the job, run the pipeline, complete with `completed` on a normal
return and `failed` with the exception message on an exception. -/
def runTrackedJob (name src : String) (t0 t1 : Nat)
    (outcome : Except String Nat) : IngestionJob :=
  let r := startJobRecord name src t0
  match outcome with
  | .ok n => completeJobRecord r t1 .completed n (some n) none
  | .error e => completeJobRecord r t1 .failed 0 (some 0) (some e)

/-- C7.  A tracked job ends with status `completed` or `failed`, never
`running`; its `end_time` is the single completion reading and
`start_time ≤ end_time`; the fresh record has no `end_time` and status
`running`, and no completion with a terminal status can return a
record to `running`. -/
theorem job_lifecycle (name src : String) (t0 t1 : Nat)
    (outcome : Except String Nat) (hclock : t0 ≤ t1) :
    ((runTrackedJob name src t0 t1 outcome).status = .completed ∨
      (runTrackedJob name src t0 t1 outcome).status = .failed) ∧
    (runTrackedJob name src t0 t1 outcome).status ≠ .running ∧
    (runTrackedJob name src t0 t1 outcome).end_time = some t1 ∧
    (runTrackedJob name src t0 t1 outcome).start_time ≤ t1 ∧
    (startJobRecord name src t0).end_time = none ∧
    (startJobRecord name src t0).status = .running ∧
    (∀ (r : IngestionJob) (t : Nat) (st : JobStatus) (p : Nat)
        (i : Option Nat) (e : Option String),
      st = .completed ∨ st = .failed →
      (completeJobRecord r t st p i e).status ≠ .running) := by
  refine ⟨?_, ?_, ?_, ?_, rfl, rfl, ?_⟩
  · cases outcome <;> simp [runTrackedJob, completeJobRecord, startJobRecord]
  · cases outcome <;> simp [runTrackedJob, completeJobRecord, startJobRecord]
  · cases outcome <;> simp [runTrackedJob, completeJobRecord, startJobRecord]
  · cases outcome <;>
      simpa [runTrackedJob, completeJobRecord, startJobRecord] using hclock
  · intro r t st p i e hst
    rcases hst with rfl | rfl <;> simp [completeJobRecord]

/-- Witness for C7: a successful 10-record run started at time 3 and
completed at time 5. -/
theorem job_lifecycle_witness :
    ((runTrackedJob "batch_weather_ingestion" "Open-Meteo API" 3 5
        (.ok 10)).status = .completed ∨
      (runTrackedJob "batch_weather_ingestion" "Open-Meteo API" 3 5
        (.ok 10)).status = .failed) ∧
    (runTrackedJob "batch_weather_ingestion" "Open-Meteo API" 3 5
        (.ok 10)).status ≠ .running ∧
    (runTrackedJob "batch_weather_ingestion" "Open-Meteo API" 3 5
        (.ok 10)).end_time = some 5 ∧
    (runTrackedJob "batch_weather_ingestion" "Open-Meteo API" 3 5
        (.ok 10)).start_time ≤ 5 ∧
    (startJobRecord "batch_weather_ingestion" "Open-Meteo API" 3).end_time = none ∧
    (startJobRecord "batch_weather_ingestion" "Open-Meteo API" 3).status = .running ∧
    (completeJobRecord (startJobRecord "batch_weather_ingestion"
        "Open-Meteo API" 3) 5 .completed 10 (some 10) none).status ≠ .running := by
  have h := job_lifecycle "batch_weather_ingestion" "Open-Meteo API" 3 5
    (.ok 10) (by norm_num)
  exact ⟨h.1, h.2.1, h.2.2.1, h.2.2.2.1, h.2.2.2.2.1, h.2.2.2.2.2.1,
    h.2.2.2.2.2.2 _ 5 .completed 10 (some 10) none (Or.inl rfl)⟩

/-- `start_job`: the store transaction either raises, returns no row,
or returns the new id; the `except` arm maps the first two to `-1`. -/
def startJobTracked (res : Except String (Option Int)) : Int :=
  match res with
  | .ok (some id) => id
  | .ok none => -1
  | .error _ => -1

/-- `complete_job`: the update is attempted and any failure only
logged; the call always returns normally. -/
def completeJobTracked (res : Except String Unit) : Unit :=
  match res with
  | .ok _ => ()
  | .error _ => ()

/-- C9.  `start_job` and `complete_job` absorb store failures: a
failing (or row-less) transaction makes `start_job` return the
sentinel `-1`, a successful one returns the new id, and
`complete_job` returns normally on every store outcome — both are
total functions of the store result, so no exception reaches the
pipeline. -/
theorem job_tracker_absorbs_failures :
    (∀ e : String, startJobTracked (.error e) = -1) ∧
    startJobTracked (.ok none) = -1 ∧
    (∀ id : Int, startJobTracked (.ok (some id)) = id) ∧
    (∀ res : Except String Unit, completeJobTracked res = ()) := by
  refine ⟨fun e => rfl, rfl, fun id => rfl, fun res => ?_⟩
  cases res <;> rfl

/-! ## Weather gap detection and backfill (`weather.py get_data_gaps`,
`fill_data_gaps`)

Timestamps are hours on the expected hourly grid.  With no stored
rows, the whole window is one gap whose `gap_hours` is the plain
difference `end − start`.  Otherwise the missing expected timestamps
are grouped into runs split where consecutive missing stamps are more
than one hour apart, each run spanning `last − first + 1` hours.
`fill_data_gaps` re-fetches exactly `[gap_start, gap_end]` for every
gap of at most `max_gap_days` days and only reports larger ones. -/

structure DataGap where
  gap_start : Nat
  gap_end : Nat
  gap_hours : Nat
  deriving DecidableEq, Repr

/-- `pd.date_range(start, end, freq='H')`: both ends included. -/
def expectedHourlyRange (start endT : Nat) : List Nat :=
  (List.range (endT - start + 1)).map (start + ·)

/-- The grouping loop over the sorted missing timestamps, carrying the
current gap's start and the previous missing stamp; the final gap is
appended after the loop. -/
def groupGapsGo (gapStart prev : Nat) : List Nat → List DataGap
  | [] => [⟨gapStart, prev, prev - gapStart + 1⟩]
  | t :: ts =>
    if t - prev > 1 then
      ⟨gapStart, prev, prev - gapStart + 1⟩ :: groupGapsGo t t ts
    else
      groupGapsGo gapStart t ts

/-- `get_data_gaps`: whole-window gap when nothing is stored, else
group the missing expected stamps (none missing → no gaps). -/
def getDataGaps (existing : List Nat) (start endT : Nat) : List DataGap :=
  match existing with
  | [] => [⟨start, endT, endT - start⟩]
  | _ =>
    match (expectedHourlyRange start endT).filter
        (fun t => decide (t ∉ existing)) with
    | [] => []
    | m :: ms => groupGapsGo m m ms

/-- `fill_data_gaps`: the `[gap_start, gap_end]` intervals re-fetched,
in gap order; gaps over `max_gap_days` are only logged. -/
def fillDataGaps (gaps : List DataGap) (maxGapDays : Nat) : List (Nat × Nat) :=
  gaps.foldr
    (fun g acc =>
      if g.gap_hours ≤ 24 * maxGapDays then (g.gap_start, g.gap_end) :: acc
      else acc) []

/-- C8.  On the hourly grid 0..10 with hours 4, 5, 6 missing, the
detector returns the single gap `[4, 6]` of span 3 (both
boundary-adjacent missing hours counted); the filler re-fetches
exactly `(4, 6)` under the 7-day default threshold, re-fetches exactly
the under-threshold gaps in general, and skips a 201-hour gap. -/
theorem gap_detection_three_hour_hole :
    getDataGaps [0, 1, 2, 3, 7, 8, 9, 10] 0 10 =
      [⟨4, 6, 3⟩] ∧
    fillDataGaps (getDataGaps [0, 1, 2, 3, 7, 8, 9, 10] 0 10) 7 = [(4, 6)] ∧
    (∀ (gaps : List DataGap) (maxD : Nat),
      fillDataGaps gaps maxD =
        (gaps.filter (fun g => g.gap_hours ≤ 24 * maxD)).map
          (fun g => (g.gap_start, g.gap_end))) ∧
    fillDataGaps [⟨0, 200, 201⟩] 7 = [] := by
  refine ⟨by decide, by decide, ?_, by decide⟩
  intro gaps maxD
  induction gaps with
  | nil => rfl
  | cons g gaps ih =>
    by_cases hg : g.gap_hours ≤ 24 * maxD
    · simp [fillDataGaps, List.filter_cons, hg, ih, fillDataGaps] at ih ⊢
      exact ih
    · simp [fillDataGaps, List.filter_cons, hg] at ih ⊢
      exact ih

/-- C10.  With no stored timestamps in the window, the detector
returns exactly one gap covering `[start, end]` whose `gap_hours` is
the bare difference `end − start`, while a gap produced by grouping
carries the `+1` convention (a single missing hour already spans 1). -/
theorem empty_store_whole_window_gap :
    (∀ start endT : Nat,
      getDataGaps [] start endT = [⟨start, endT, endT - start⟩]) ∧
    (∀ m : Nat, groupGapsGo m m [] = [⟨m, m, 1⟩]) := by
  refine ⟨fun start endT => rfl, fun m => ?_⟩
  simp [groupGapsGo]

end EnergyAnalytics
